import Mathlib

/-!
Verification of the booking application's core rules: a shallow embedding of
the booking routes (creation, deletion-by-id, expiry cleanup), the phone
validator and the timezone helpers, together with theorems settling the
specified properties (half-open interval overlap, state invariants, future
check, expiry grace window, error handling, cleanup idempotence).

Modelling conventions, used throughout:
* JavaScript strings are `String` in Lean; the JS relational operators on
  strings (code-unit lexicographic order) are embedded as the executable
  `charsLt`/`strLtB`/`strLeB` below.  Every character appearing in the data
  (times "HH:MM", dates "YYYY-MM-DD") is in the Basic Multilingual Plane, so
  UTF-16 code-unit order and code-point order agree.
* Instants are `Int` milliseconds since the Unix epoch, as `Date.getTime()`.
  `T` always names the current UTC instant (`new Date()`/`Date.now()`), and
  `h` the host process's local-timezone offset from UTC in milliseconds
  (eastwards positive).  The deployment targets in the sources (Vercel,
  Render) run at `h = 0`; local development in Thailand runs at
  `h = THAILAND_TIMEZONE_OFFSET`.  Daylight-saving transitions do not exist
  in either UTC or Asia/Bangkok, so a host is modelled as a fixed offset.
* `new Date("YYYY-MM-DDTHH:MM")` parses the wall-clock fields and interprets
  them in the host's local timezone: its epoch value is the civil
  millisecond value minus `h`.  Parse failure gives an invalid date; every
  relational comparison involving an invalid date is false in JS, which the
  embeddings reproduce branch by branch.  The embedded parser accepts the
  canonical zero-padded formats produced by the form's inputs; the lenient
  non-ISO fallbacks of some JS engines, second/millisecond fields, calendar
  over-run days such as Feb 30, and the special hour 24 are not modelled (no
  claim depends on them).
* `toLocaleString(.., Asia/Bangkok)` followed by re-parsing, as used by
  `lib/timezone.ts`, shifts an instant by `THAILAND_TIMEZONE_OFFSET` and
  re-anchors it in the host zone; the sub-second truncation of the
  formatted string is ignored (all stored times are minute-aligned).
* The persistence gateway (Supabase / the JSON data file) is modelled as the
  list of stored rows; store-level failures are the external collaborator's
  and are modelled only where the route code itself branches on them
  (`insertOk`, `DataFile.unreadable`).
-/

/-! ## JS string primitives -/

/-- JS `<` on strings: lexicographic comparison of code units. -/
def charsLt : List Char → List Char → Bool
  | [], [] => false
  | [], _ :: _ => true
  | _ :: _, [] => false
  | a :: as, b :: bs =>
    if a.toNat < b.toNat then true
    else if b.toNat < a.toNat then false
    else charsLt as bs

/-- JS `s < t` for strings. -/
def strLtB (s t : String) : Bool := charsLt s.data t.data

/-- JS `s <= t` for strings (equivalent to `!(t < s)`). -/
def strLeB (s t : String) : Bool := !(charsLt t.data s.data)

/-- Numeric value of a decimal digit character. -/
def digitVal (c : Char) : Nat := c.toNat - 48

/-! ## Civil date/time parsing (the embedding of `new Date` on the
    canonical `YYYY-MM-DD` / `HH:MM` form strings) -/

/-- Parse `HH:MM` into minutes after midnight; `none` on malformed input. -/
def parseTimeL : List Char → Option Nat
  | [a, b, c, d, e] =>
    if c = ':' && a.isDigit && b.isDigit && d.isDigit && e.isDigit then
      let hh := 10 * digitVal a + digitVal b
      let mm := 10 * digitVal d + digitVal e
      if hh ≤ 23 && mm ≤ 59 then some (60 * hh + mm) else none
    else none
  | _ => none

/-- Parse a time string `HH:MM`. -/
def parseTime (s : String) : Option Nat := parseTimeL s.data

/-- Days since 1970-01-01 of a civil date (Gregorian, proleptic). -/
def daysSinceEpoch (y m d : Nat) : Int :=
  let yi : Int := if m ≤ 2 then (y : Int) - 1 else (y : Int)
  let era : Int := yi.ediv 400
  let yoe : Int := yi - era * 400
  let mp : Int := if m ≤ 2 then (m : Int) + 9 else (m : Int) - 3
  let doy : Int := (153 * mp + 2).ediv 5 + (d : Int) - 1
  let doe : Int := yoe * 365 + yoe.ediv 4 - yoe.ediv 100 + doy
  era * 146097 + doe - 719468

/-- Parse `YYYY-MM-DD` into days since the epoch; `none` on malformed input. -/
def parseDateL : List Char → Option Int
  | [y1, y2, y3, y4, s1, m1, m2, s2, d1, d2] =>
    if s1 = '-' && s2 = '-' && y1.isDigit && y2.isDigit && y3.isDigit && y4.isDigit &&
        m1.isDigit && m2.isDigit && d1.isDigit && d2.isDigit then
      let y := 1000 * digitVal y1 + 100 * digitVal y2 + 10 * digitVal y3 + digitVal y4
      let mo := 10 * digitVal m1 + digitVal m2
      let dd := 10 * digitVal d1 + digitVal d2
      if 1 ≤ mo && mo ≤ 12 && 1 ≤ dd && dd ≤ 31 then some (daysSinceEpoch y mo dd) else none
    else none
  | _ => none

/-- Parse a date string `YYYY-MM-DD`. -/
def parseDate (s : String) : Option Int := parseDateL s.data

/-- Civil millisecond value of `` `${date}T${time}` `` (the wall-clock value,
    before any timezone anchoring); `none` when `new Date` would be invalid. -/
def parseCivil (date time : String) : Option Int :=
  match parseDate date, parseTime time with
  | some dday, some mins => some (dday * 86400000 + (mins : Int) * 60000)
  | _, _ => none

/-! ## Constants from `lib/timezone.ts` and `app/api/cleanup/route.ts` -/

/-- `THAILAND_TIMEZONE_OFFSET = 7 * 60 * 60 * 1000` (lib/timezone.ts). -/
def THAILAND_TIMEZONE_OFFSET : Int := 7 * 60 * 60 * 1000

/-- The cleanup grace window, `30 * 60 * 1000` ms in
    `app/api/cleanup/route.ts` (the spec's named configuration constant,
    default 30 minutes). -/
def GRACE_WINDOW_MS : Int := 30 * 60 * 1000

/-! ## Data model -/

/-- A stored booking row.  The flat-file iteration's `Booking` has no
    `phone` field; rows it creates carry `phone = ""` here. -/
structure Booking where
  id : String
  booker_name : String
  phone : String
  machine : String
  date : String
  start_time : String
  end_time : String
  created_at : String
  session_id : String
deriving DecidableEq

/-- The candidate passed to the overlap check
    (`Omit<Booking, "id" | "created_at" | "session_id">`; the `phone` and
    `booker_name` fields play no role in the check and only the fields it
    reads are kept). -/
structure NewBooking where
  machine : String
  date : String
  start_time : String
  end_time : String
deriving DecidableEq

/-- The JSON body of a POST request (all fields strings, absent modelled as
    `""`, which is what the falsiness checks test). -/
structure PostBody where
  bookerName : String
  phone : String
  machine : String
  date : String
  startTime : String
  endTime : String
deriving DecidableEq

/-! ## Embedded route logic -/

/-- `hasOverlappingBooking` (app/api/bookings/route.ts, identically in the
    Supabase iteration): some existing row has the same machine and date and
    `newStart < existingEnd && newEnd > existingStart` under JS string
    comparison. -/
def hasOverlappingBooking (bookings : List Booking) (nb : NewBooking) : Bool :=
  bookings.any fun booking =>
    if booking.machine != nb.machine || booking.date != nb.date then false
    else strLtB nb.start_time booking.end_time && strLtB booking.start_time nb.end_time

/-- JS `\s` (the whitespace class of the phone-normalisation regex). -/
def isJsSpace (c : Char) : Bool :=
  c = ' ' || c = '\t' || c = '\n' || c = '\r' || c.toNat = 11 || c.toNat = 12 ||
  c.toNat = 0xa0 || c.toNat = 0x1680 || (0x2000 ≤ c.toNat && c.toNat ≤ 0x200a) ||
  c.toNat = 0x2028 || c.toNat = 0x2029 || c.toNat = 0x202f || c.toNat = 0x205f ||
  c.toNat = 0x3000 || c.toNat = 0xfeff

/-- `phone.replace(/[\s\-\(\)]/g, '')`: drop whitespace, dashes and
    parentheses. -/
def cleanPhoneL (l : List Char) : List Char :=
  l.filter fun c => !(isJsSpace c || c = '-' || c = '(' || c = ')')

/-- String form of the normalisation. -/
def cleanPhone (s : String) : String := String.mk (cleanPhoneL s.data)

/-- Regex `^0[689]\d{8}$`. -/
def patMobile : List Char → Bool
  | '0' :: c :: rest =>
    (c == '6' || c == '8' || c == '9') && rest.length == 8 && rest.all Char.isDigit
  | _ => false

/-- Regex `^0[2-7]\d{7,8}$`. -/
def patLand : List Char → Bool
  | '0' :: c :: rest =>
    (decide ('2' ≤ c) && decide (c ≤ '7')) && (rest.length == 7 || rest.length == 8) &&
      rest.all Char.isDigit
  | _ => false

/-- Regex `^\+66[689]\d{8}$`. -/
def patIntlMobile : List Char → Bool
  | '+' :: '6' :: '6' :: c :: rest =>
    (c == '6' || c == '8' || c == '9') && rest.length == 8 && rest.all Char.isDigit
  | _ => false

/-- Regex `^\+660[2-7]\d{7,8}$`. -/
def patIntlLand : List Char → Bool
  | '+' :: '6' :: '6' :: '0' :: c :: rest =>
    (decide ('2' ≤ c) && decide (c ≤ '7')) && (rest.length == 7 || rest.length == 8) &&
      rest.all Char.isDigit
  | _ => false

/-- Regex `^66[689]\d{8}$`. -/
def pat66Mobile : List Char → Bool
  | '6' :: '6' :: c :: rest =>
    (c == '6' || c == '8' || c == '9') && rest.length == 8 && rest.all Char.isDigit
  | _ => false

/-- Regex `^660[2-7]\d{7,8}$`. -/
def pat66Land : List Char → Bool
  | '6' :: '6' :: '0' :: c :: rest =>
    (decide ('2' ≤ c) && decide (c ≤ '7')) && (rest.length == 7 || rest.length == 8) &&
      rest.all Char.isDigit
  | _ => false

/-- `validateThaiPhone` (Supabase bookings route): normalise, then accept iff
    one of the six regional patterns matches. -/
def validateThaiPhone (phone : String) : Bool :=
  let cp := cleanPhoneL phone.data
  patMobile cp || patLand cp || patIntlMobile cp || patIntlLand cp ||
    pat66Mobile cp || pat66Land cp

/-- `getCurrentThailandDate()` (lib/timezone.ts): format the current instant
    `T` in Asia/Bangkok and re-parse the wall clock in the host zone; the
    resulting epoch value is `T + 7h - h`. -/
def getCurrentThailandDate (T h : Int) : Int := T + THAILAND_TIMEZONE_OFFSET - h

/-- `isBookingExpired` (lib/timezone.ts): compare `getCurrentThailandDate()`
    with `new Date(new Date(endString).toLocaleString(sv, Bangkok))`.  On any
    parse failure the comparison is false (invalid-date comparison or the
    catch block), i.e. the booking is not expired. -/
def isBookingExpired (T h : Int) (date endTime : String) : Bool :=
  match parseCivil date endTime with
  | none => false
  | some c =>
    let nowInThailand := getCurrentThailandDate T h
    let bookingEndThailand := (c - h) + THAILAND_TIMEZONE_OFFSET - h
    decide (nowInThailand > bookingEndThailand)

/-- The expiry test of `performCleanup` (app/api/cleanup/route.ts):
    `now.getTime() > endDateTime.getTime() + 30 * 60 * 1000`, with `now`
    from `getCurrentThailandDate()` and `endDateTime` host-local parsed;
    a booking whose fields fail to parse is skipped (not expired). -/
def cleanupRouteExpired (T h : Int) (b : Booking) : Bool :=
  match parseCivil b.date b.end_time with
  | none => false
  | some c => decide (getCurrentThailandDate T h > (c - h) + GRACE_WINDOW_MS)

/-- `performCleanup` (app/api/cleanup/route.ts): collect the ids of rows
    expired past the grace window, delete every row carrying one of those
    ids, report the number of collected ids. -/
def performCleanup (T h : Int) (bookings : List Booking) : Nat × List Booking :=
  let expiredIds := (bookings.filter (cleanupRouteExpired T h)).map Booking.id
  (expiredIds.length, bookings.filter fun b => !(expiredIds.contains b.id))

/-- `cleanupExpiredBookings` (Supabase bookings route): keep the rows for
    which `isBookingExpired` is false; on an evaluation error the row is
    kept. -/
def cleanupExpiredBookings1 (T h : Int) (bookings : List Booking) : List Booking :=
  bookings.filter fun b => !(isBookingExpired T h b.date b.end_time)

/-- `performCleanup` of the flat-file cleanup route: filter by
    `isBookingExpired` (keeping rows that error) and report
    `originalCount - activeCount`. -/
def performCleanupFile (T h : Int) (bookings : List Booking) : Nat × List Booking :=
  let active := bookings.filter fun b => !(isBookingExpired T h b.date b.end_time)
  (bookings.length - active.length, active)

/-- `cleanupExpiredBookings` (app/api/bookings/route.ts, flat-file): keep
    rows with `new Date(dateTend) > now`; a row whose fields do not parse
    compares false and is dropped. -/
def cleanupExpiredBookings (T h : Int) (bookings : List Booking) : List Booking :=
  bookings.filter fun b =>
    match parseCivil b.date b.end_time with
    | some c => decide (T < c - h)
    | none => false

/-- The state of the JSON data file behind `readBookings`/`writeBookings`:
    missing, unreadable (read throws), or present with the outcome of
    `JSON.parse` (`none` = parse throws). -/
inductive DataFile where
  | absent
  | unreadable
  | content (parsed : Option (List Booking))
deriving DecidableEq

/-- `readBookings` (app/api/bookings/route.ts): `[]` when the file is
    missing, unreadable or unparseable. -/
def readBookings : DataFile → List Booking
  | .absent => []
  | .unreadable => []
  | .content none => []
  | .content (some bs) => bs

/-- `if (!bookerName || !machine || !date || !startTime || !endTime)` of the
    flat-file POST. -/
def requiredMissingRoute (body : PostBody) : Bool :=
  body.bookerName == "" || body.machine == "" || body.date == "" ||
    body.startTime == "" || body.endTime == ""

/-- The same check of the Supabase POST, which also requires `phone`. -/
def requiredMissingDb (body : PostBody) : Bool :=
  requiredMissingRoute body || body.phone == ""

/-- `new Date(`` `${date}T${startTime}` ``) <= now`: true exactly when the
    fields parse and the host-local instant is not after `T`; an invalid
    date compares false. -/
def futureRejectCheck (T h : Int) (date startTime : String) : Bool :=
  match parseCivil date startTime with
  | some c => decide (c - h ≤ T)
  | none => false

/-- The candidate record handed to the overlap check. -/
def newBookingDataOf (body : PostBody) : NewBooking :=
  ⟨body.machine, body.date, body.startTime, body.endTime⟩

/-- The row created by the flat-file POST (its `Booking` has no phone). -/
def mkBookingRoute (body : PostBody) (newId createdAt sessionId : String) : Booking :=
  ⟨newId, body.bookerName, "", body.machine, body.date, body.startTime, body.endTime,
    createdAt, sessionId⟩

/-- The row created by the Supabase POST. -/
def mkBookingDb (body : PostBody) (newId createdAt sessionId : String) : Booking :=
  ⟨newId, body.bookerName, body.phone, body.machine, body.date, body.startTime, body.endTime,
    createdAt, sessionId⟩

/-- Outcome of a POST request. -/
inductive PostResult where
  | err401
  | err400Missing
  | err400Phone
  | err400Order
  | err400Past
  | err409
  | err500
  | created (b : Booking)
deriving DecidableEq

/-- `POST` (app/api/bookings/route.ts, flat-file iteration): session check,
    required fields, `endTime <= startTime`, future check, then overlap
    against the cleaned stored rows; on success append the new row to the
    cleaned rows and write the file. -/
def POSTRoute (T h : Int) (sid : Option String) (body : PostBody) (newId createdAt : String)
    (file : DataFile) : PostResult × DataFile :=
  match sid with
  | none => (.err401, file)
  | some sessionId =>
    if requiredMissingRoute body then (.err400Missing, file)
    else if strLeB body.endTime body.startTime then (.err400Order, file)
    else if futureRejectCheck T h body.date body.startTime then (.err400Past, file)
    else if hasOverlappingBooking (cleanupExpiredBookings T h (readBookings file))
        (newBookingDataOf body) then (.err409, file)
    else
      (.created (mkBookingRoute body newId createdAt sessionId),
        .content (some (cleanupExpiredBookings T h (readBookings file) ++
          [mkBookingRoute body newId createdAt sessionId])))

/-- `POST` (Supabase iteration): adds the phone check; the store keeps all
    previous rows (the expiry filter is in-memory, only for the overlap
    check) and gains the new row on a successful insert. -/
def POSTSupabase (T h : Int) (sid : Option String) (body : PostBody) (newId createdAt : String)
    (insertOk : Bool) (stored : List Booking) : PostResult × List Booking :=
  match sid with
  | none => (.err401, stored)
  | some sessionId =>
    if requiredMissingDb body then (.err400Missing, stored)
    else if !(validateThaiPhone body.phone) then (.err400Phone, stored)
    else if strLeB body.endTime body.startTime then (.err400Order, stored)
    else if futureRejectCheck T h body.date body.startTime then (.err400Past, stored)
    else if hasOverlappingBooking (cleanupExpiredBookings1 T h stored)
        (newBookingDataOf body) then (.err409, stored)
    else if insertOk then
      (.created (mkBookingDb body newId createdAt sessionId),
        stored ++ [mkBookingDb body newId createdAt sessionId])
    else (.err500, stored)

/-- Outcome of a DELETE-by-id request. -/
inductive DeleteResult where
  | err401
  | err400
  | err404
  | err403
  | ok (b : Booking)
deriving DecidableEq

/-- `DELETE` (bookings/[id] route, flat-file iteration, whose body the
    Supabase iteration mirrors): 401 without a session, 400 on an empty id,
    404 when `findIndex` misses, 403 when the row belongs to another session
    and `isAdmin` is not set, otherwise remove the found row (`splice`) and
    return it. -/
def deleteById (isAdmin : Bool) (sid : Option String) (bookingId : String)
    (bookings : List Booking) : DeleteResult × List Booking :=
  match sid with
  | none => (.err401, bookings)
  | some sessionId =>
    if bookingId == "" then (.err400, bookings)
    else
      match bookings.find? (fun b => b.id == bookingId) with
      | none => (.err404, bookings)
      | some booking =>
        if !isAdmin && booking.session_id != sessionId then (.err403, bookings)
        else (.ok booking, bookings.eraseP (fun b => b.id == bookingId))

/-- JS sort comparator of the GET route: by date, then by start time
    (`localeCompare` modelled as code-unit order). -/
def bookingLe (a b : Booking) : Bool :=
  if a.date == b.date then strLeB a.start_time b.start_time else strLeB a.date b.date

/-- Stable insertion used to model `Array.prototype.sort`. -/
def insertBooking (b : Booking) : List Booking → List Booking
  | [] => [b]
  | a :: rest => if bookingLe a b then a :: insertBooking b rest else b :: a :: rest

/-- Stable sort used to model `Array.prototype.sort`. -/
def sortBookings : List Booking → List Booking
  | [] => []
  | b :: rest => insertBooking b (sortBookings rest)

/-- The JSON payload of a successful GET (`bookings` with their `isOwner`
    flags, `count`, `sessionId`); producing it is the 200 response. -/
structure GetResponse where
  bookings : List (Booking × Bool)
  count : Nat
  sessionId : Option String
deriving DecidableEq

/-- `GET` (app/api/bookings/route.ts): read, drop expired rows (persisting
    the file only when something was dropped), sort, attach ownership. -/
def GETRoute (T h : Int) (sid : Option String) (file : DataFile) : GetResponse × DataFile :=
  let bookings := readBookings file
  let activeBookings := cleanupExpiredBookings T h bookings
  let file2 := if activeBookings.length == bookings.length then file
    else DataFile.content (some activeBookings)
  let sorted := sortBookings activeBookings
  (⟨sorted.map (fun b => (b, sid == some b.session_id)), activeBookings.length, sid⟩, file2)

/-! ## The operations of the state machine (claim C2) -/

/-- One request hitting the store: a flat-file POST, a Supabase POST, a
    DELETE by id, or one of the two cleanup passes.  Each carries its own
    environment (current instant, host offset, session, body, generated id
    and timestamp). -/
inductive BookingOp where
  | postFile (T h : Int) (sid : Option String) (body : PostBody) (newId createdAt : String)
  | postDb (T h : Int) (sid : Option String) (body : PostBody) (newId createdAt : String)
      (insertOk : Bool)
  | deleteOne (isAdmin : Bool) (sid : Option String) (bookingId : String)
  | cleanupDb (T h : Int)
  | cleanupFile (T h : Int)

/-- Effect of one operation on the stored rows. -/
def applyOp (s : List Booking) : BookingOp → List Booking
  | .postFile T h sid body newId createdAt =>
    readBookings (POSTRoute T h sid body newId createdAt (.content (some s))).2
  | .postDb T h sid body newId createdAt insertOk =>
    (POSTSupabase T h sid body newId createdAt insertOk s).2
  | .deleteOne isAdmin sid bookingId => (deleteById isAdmin sid bookingId s).2
  | .cleanupDb T h => (performCleanup T h s).2
  | .cleanupFile T h => (performCleanupFile T h s).2

/-- Spec-side interval overlap ("two intervals sharing any point in time,
    touching endpoints excluded"): same machine, same date, and the parsed
    half-open minute intervals `[start, end)` intersect.  Rows whose time
    fields do not denote times have no interval. -/
def specTimeOverlaps (b1 b2 : Booking) : Bool :=
  b1.machine == b2.machine && b1.date == b2.date &&
    match parseTime b1.start_time, parseTime b1.end_time,
        parseTime b2.start_time, parseTime b2.end_time with
    | some s1, some e1, some s2, some e2 => decide (s1 < e2) && decide (s2 < e1)
    | _, _, _, _ => false

/-- The invariant of claim C2: no two stored rows overlap. -/
def NoOverlaps (l : List Booking) : Prop :=
  l.Pairwise fun a b => specTimeOverlaps a b = false

/-! ## Helper lemmas -/

theorem isDigit_toNat {c : Char} (h : c.isDigit = true) : 48 ≤ c.toNat ∧ c.toNat ≤ 57 := by
  simp only [Char.isDigit, Bool.and_eq_true, decide_eq_true_eq] at h
  exact ⟨(show ('0' : Char) ≤ c ↔ 48 ≤ c.toNat from Iff.rfl).mp h.1,
         (show c ≤ ('9' : Char) ↔ c.toNat ≤ 57 from Iff.rfl).mp h.2⟩

theorem lex_digit_iff (X Y : Nat) (R : Bool) (P : Prop)
    (hlt : X < Y → P) (hgt : Y < X → ¬ P) (heq : X = Y → (R = true ↔ P)) :
    (if X < Y then true else if Y < X then false else R) = true ↔ P := by
  by_cases h1 : X < Y
  · simp only [if_pos h1]
    exact iff_of_true (by simp) (hlt h1)
  · by_cases h2 : Y < X
    · simp only [if_neg h1, if_pos h2]
      exact iff_of_false Bool.false_ne_true (hgt h2)
    · simp only [if_neg h1, if_neg h2]
      exact heq (by omega)

theorem parseTimeL_shape (l : List Char) (m : Nat) (h : parseTimeL l = some m) :
    ∃ a b d e : Char, l = [a, b, ':', d, e] ∧ a.isDigit = true ∧ b.isDigit = true ∧
      d.isDigit = true ∧ e.isDigit = true ∧
      10 * digitVal a + digitVal b ≤ 23 ∧ 10 * digitVal d + digitVal e ≤ 59 ∧
      m = 60 * (10 * digitVal a + digitVal b) + (10 * digitVal d + digitVal e) := by
  match l with
  | [] => simp [parseTimeL] at h
  | [a] => simp [parseTimeL] at h
  | [a, b] => simp [parseTimeL] at h
  | [a, b, c] => simp [parseTimeL] at h
  | [a, b, c, d] => simp [parseTimeL] at h
  | a :: b :: c :: d :: e :: f :: rest => simp [parseTimeL] at h
  | [a, b, c, d, e] =>
    simp only [parseTimeL] at h
    split at h
    case isTrue hcond =>
      split at h
      case isTrue hr =>
        injection h with hm
        simp only [Bool.and_eq_true, decide_eq_true_eq] at hcond hr
        obtain ⟨⟨⟨⟨hc1, hc2⟩, hc3⟩, hc4⟩, hc5⟩ := hcond
        exact ⟨a, b, d, e, by rw [hc1], hc2, hc3, hc4, hc5, hr.1, hr.2, hm.symm⟩
      case isFalse hr => exact absurd h (by simp)
    case isFalse hcond => exact absurd h (by simp)

theorem charsLt_time_iff (a b d e a' b' d' e' : Char)
    (ha : a.isDigit = true) (hb : b.isDigit = true) (hd : d.isDigit = true) (he : e.isDigit = true)
    (ha' : a'.isDigit = true) (hb' : b'.isDigit = true) (hd' : d'.isDigit = true)
    (he' : e'.isDigit = true)
    (hm : 10 * digitVal d + digitVal e ≤ 59) (hm' : 10 * digitVal d' + digitVal e' ≤ 59) :
    charsLt [a, b, ':', d, e] [a', b', ':', d', e'] = true ↔
      60 * (10 * digitVal a + digitVal b) + (10 * digitVal d + digitVal e) <
      60 * (10 * digitVal a' + digitVal b') + (10 * digitVal d' + digitVal e') := by
  obtain ⟨ha1, ha2⟩ := isDigit_toNat ha
  obtain ⟨hb1, hb2⟩ := isDigit_toNat hb
  obtain ⟨hd1, hd2⟩ := isDigit_toNat hd
  obtain ⟨he1, he2⟩ := isDigit_toNat he
  obtain ⟨ha1', ha2'⟩ := isDigit_toNat ha'
  obtain ⟨hb1', hb2'⟩ := isDigit_toNat hb'
  obtain ⟨hd1', hd2'⟩ := isDigit_toNat hd'
  obtain ⟨he1', he2'⟩ := isDigit_toNat he'
  simp only [digitVal] at *
  show (if _ then _ else _) = true ↔ _
  apply lex_digit_iff
  · intro h1; omega
  · intro h1; omega
  · intro h1
    show (if _ then _ else _) = true ↔ _
    apply lex_digit_iff
    · intro h2; omega
    · intro h2; omega
    · intro h2
      show (if _ then _ else _) = true ↔ _
      apply lex_digit_iff
      · intro h3; omega
      · intro h3; omega
      · intro h3
        show (if _ then _ else _) = true ↔ _
        apply lex_digit_iff
        · intro h4; omega
        · intro h4; omega
        · intro h4
          show (if _ then _ else _) = true ↔ _
          apply lex_digit_iff
          · intro h5; omega
          · intro h5; omega
          · intro h5
            exact iff_of_false (by simp [charsLt]) (by omega)

/-- Well-formed `HH:MM` strings compare under JS string order exactly as
    their minute values compare. -/
theorem parseTime_lt_iff {s t : String} {ms mt : Nat}
    (hs : parseTime s = some ms) (ht : parseTime t = some mt) :
    strLtB s t = true ↔ ms < mt := by
  obtain ⟨a, b, d, e, hsd, ha, hb, hd, he, hh, hm, hms⟩ := parseTimeL_shape s.data ms hs
  obtain ⟨a2, b2, d2, e2, htd, ha2, hb2, hd2, he2, hh2, hm2, hmt⟩ :=
    parseTimeL_shape t.data mt ht
  unfold strLtB
  rw [hsd, htd, hms, hmt]
  exact charsLt_time_iff a b d e a2 b2 d2 e2 ha hb hd he ha2 hb2 hd2 he2 hm hm2

theorem charsLt_self (l : List Char) : charsLt l l = false := by
  induction l with
  | nil => rfl
  | cons a as ih => simp [charsLt, ih]

theorem strLtB_self (s : String) : strLtB s s = false := charsLt_self s.data

theorem overlapOne_iff (b : Booking) (nb : NewBooking) :
    (if b.machine != nb.machine || b.date != nb.date then false
      else strLtB nb.start_time b.end_time && strLtB b.start_time nb.end_time) = true ↔
      (b.machine = nb.machine ∧ b.date = nb.date ∧
        strLtB b.start_time nb.end_time = true ∧ strLtB nb.start_time b.end_time = true) := by
  by_cases hm : b.machine = nb.machine
  · by_cases hd : b.date = nb.date
    · simp [hm, hd, Bool.and_eq_true, and_comm]
    · simp [hm, hd]
  · simp [hm]

theorem hasOverlappingBooking_iff (bs : List Booking) (nb : NewBooking) :
    hasOverlappingBooking bs nb = true ↔
      ∃ b ∈ bs, b.machine = nb.machine ∧ b.date = nb.date ∧
        strLtB b.start_time nb.end_time = true ∧ strLtB nb.start_time b.end_time = true := by
  unfold hasOverlappingBooking
  rw [List.any_eq_true]
  constructor
  · rintro ⟨b, hb, hcond⟩
    exact ⟨b, hb, (overlapOne_iff b nb).mp hcond⟩
  · rintro ⟨b, hb, hcond⟩
    exact ⟨b, hb, (overlapOne_iff b nb).mpr hcond⟩

theorem hasOverlappingBooking_false (bs : List Booking) (nb : NewBooking) (b : Booking)
    (hfalse : hasOverlappingBooking bs nb = false) (hb : b ∈ bs)
    (hm : b.machine = nb.machine) (hd : b.date = nb.date)
    (h1 : strLtB b.start_time nb.end_time = true) (h2 : strLtB nb.start_time b.end_time = true) :
    False := by
  have htrue := (hasOverlappingBooking_iff bs nb).mpr ⟨b, hb, hm, hd, h1, h2⟩
  rw [hfalse] at htrue
  exact Bool.false_ne_true htrue

theorem isBookingExpired_eq {T h : Int} {date endTime : String} {c : Int}
    (hp : parseCivil date endTime = some c) :
    isBookingExpired T h date endTime = decide (T + h > c) := by
  simp only [isBookingExpired, hp, getCurrentThailandDate]
  rw [decide_eq_decide]
  omega

theorem isBookingExpired_none {T h : Int} {date endTime : String}
    (hp : parseCivil date endTime = none) :
    isBookingExpired T h date endTime = false := by
  simp only [isBookingExpired, hp]

theorem cleanupRouteExpired_eq {T h : Int} {b : Booking} {c : Int}
    (hp : parseCivil b.date b.end_time = some c) :
    cleanupRouteExpired T h b = decide (T + THAILAND_TIMEZONE_OFFSET > c + GRACE_WINDOW_MS) := by
  simp only [cleanupRouteExpired, hp, getCurrentThailandDate]
  rw [decide_eq_decide]
  omega

theorem find_eraseP_decomp (p : Booking → Bool) (l : List Booking) (b : Booking)
    (h : l.find? p = some b) :
    ∃ l1 l2, l = l1 ++ b :: l2 ∧ (∀ x ∈ l1, p x = false) ∧ l.eraseP p = l1 ++ l2 := by
  induction l with
  | nil => simp at h
  | cons a l ih =>
    by_cases hp : p a = true
    · rw [List.find?_cons_of_pos _ hp] at h
      injection h with hb
      subst hb
      exact ⟨[], l, rfl, by simp, by simp [List.eraseP_cons_of_pos hp]⟩
    · have hp' : p a = false := by simpa using hp
      rw [List.find?_cons_of_neg _ hp] at h
      obtain ⟨l1, l2, hl, hall, he⟩ := ih h
      refine ⟨a :: l1, l2, by rw [hl]; rfl, ?_, ?_⟩
      · intro x hx
        rcases List.mem_cons.mp hx with hx | hx
        · rw [hx]; exact hp'
        · exact hall x hx
      · rw [List.eraseP_cons_of_neg hp, he]
        rfl

theorem cleanPhoneL_idem (l : List Char) : cleanPhoneL (cleanPhoneL l) = cleanPhoneL l := by
  simp [cleanPhoneL, List.filter_filter, Bool.and_self]

theorem specTimeOverlaps_iff (b1 b2 : Booking) :
    specTimeOverlaps b1 b2 = true ↔
      b1.machine = b2.machine ∧ b1.date = b2.date ∧
        ∃ s1 e1 s2 e2, parseTime b1.start_time = some s1 ∧ parseTime b1.end_time = some e1 ∧
          parseTime b2.start_time = some s2 ∧ parseTime b2.end_time = some e2 ∧
          s1 < e2 ∧ s2 < e1 := by
  unfold specTimeOverlaps
  cases h1 : parseTime b1.start_time <;> cases h2 : parseTime b1.end_time <;>
    cases h3 : parseTime b2.start_time <;> cases h4 : parseTime b2.end_time <;>
    simp [h1, h2, h3, h4, Bool.and_eq_true, beq_iff_eq, and_assoc]

theorem isBookingExpired_true_inv (T h : Int) (date endTime : String)
    (hexp : isBookingExpired T h date endTime = true) :
    ∃ c, parseCivil date endTime = some c ∧ T + h > c := by
  cases hp : parseCivil date endTime with
  | none =>
    rw [isBookingExpired_none hp] at hexp
    exact absurd hexp (by simp)
  | some c =>
    rw [isBookingExpired_eq hp] at hexp
    exact ⟨c, rfl, of_decide_eq_true hexp⟩

theorem parseCivil_some_inv (date time : String) (c : Int)
    (hp : parseCivil date time = some c) :
    ∃ d m, parseDate date = some d ∧ parseTime time = some m ∧
      c = d * 86400000 + (m : Int) * 60000 := by
  unfold parseCivil at hp
  cases hd : parseDate date <;> cases hm : parseTime time <;> rw [hd, hm] at hp <;>
    simp at hp
  exact ⟨_, _, rfl, rfl, hp.symm⟩

theorem deleteById_snd_sublist (isAdmin : Bool) (sid : Option String) (bookingId : String)
    (bs : List Booking) : List.Sublist (deleteById isAdmin sid bookingId bs).2 bs := by
  unfold deleteById
  cases sid with
  | none => exact List.Sublist.refl bs
  | some sessionId =>
    dsimp only
    by_cases he : (bookingId == "") = true
    · rw [if_pos he]
    · rw [if_neg he]
      cases hf : bs.find? (fun b => b.id == bookingId) with
      | none => exact List.Sublist.refl bs
      | some b =>
        dsimp only
        by_cases hc : (!isAdmin && b.session_id != sessionId) = true
        · rw [if_pos hc]
        · rw [if_neg hc]; exact List.eraseP_sublist bs

theorem check_blocks_overlap (body : PostBody) (cleaned : List Booking)
    (hov : hasOverlappingBooking cleaned (newBookingDataOf body) = false)
    (a : Booking) (ha : a ∈ cleaned) (x : Booking)
    (hxm : x.machine = body.machine) (hxd : x.date = body.date)
    (hxs : x.start_time = body.startTime) (hxe : x.end_time = body.endTime) :
    specTimeOverlaps a x = false := by
  by_contra hne
  have htrue : specTimeOverlaps a x = true := by
    cases hy : specTimeOverlaps a x
    · exact absurd hy hne
    · rfl
  obtain ⟨hm, hd, s1, e1, s2, e2, hp1, hp2, hp3, hp4, hlt1, hlt2⟩ :=
    (specTimeOverlaps_iff a x).mp htrue
  have hstr1 : strLtB a.start_time body.endTime = true := by
    rw [← hxe]
    exact (parseTime_lt_iff hp1 hp4).mpr hlt1
  have hstr2 : strLtB body.startTime a.end_time = true := by
    rw [← hxs]
    exact (parseTime_lt_iff hp3 hp2).mpr hlt2
  exact hasOverlappingBooking_false cleaned (newBookingDataOf body) a hov ha
    (hm.trans hxm) (hd.trans hxd) hstr1 hstr2

theorem expired_no_overlap (T h : Int) (body : PostBody) (a : Booking)
    (hexp : isBookingExpired T h a.date a.end_time = true)
    (hfut : futureRejectCheck T h body.date body.startTime = false)
    (x : Booking) (hxd : x.date = body.date)
    (hxs : x.start_time = body.startTime) :
    specTimeOverlaps a x = false := by
  by_contra hne
  have htrue : specTimeOverlaps a x = true := by
    cases hy : specTimeOverlaps a x
    · exact absurd hy hne
    · rfl
  obtain ⟨hm, hd, s1, e1, s2, e2, hp1, hp2, hp3, hp4, hlt1, hlt2⟩ :=
    (specTimeOverlaps_iff a x).mp htrue
  obtain ⟨c, hpc, hTc⟩ := isBookingExpired_true_inv T h a.date a.end_time hexp
  obtain ⟨D, me, hD, hme, hc⟩ := parseCivil_some_inv a.date a.end_time c hpc
  have hmeq : me = e1 := by
    rw [hme] at hp2
    injection hp2
  have hDb : parseDate body.date = some D := by
    rw [← hxd, ← hd]
    exact hD
  have hsb : parseTime body.startTime = some s2 := by
    rw [← hxs]
    exact hp3
  have hcs : parseCivil body.date body.startTime = some (D * 86400000 + (s2 : Int) * 60000) := by
    unfold parseCivil
    rw [hDb, hsb]
  rw [futureRejectCheck, hcs] at hfut
  have hgt := of_decide_eq_false hfut
  omega

theorem performCleanup_def (T h : Int) (s : List Booking) :
    performCleanup T h s =
      (((s.filter (cleanupRouteExpired T h)).map Booking.id).length,
        s.filter fun b =>
          !(((s.filter (cleanupRouteExpired T h)).map Booking.id).contains b.id)) := rfl

theorem performCleanupFile_def (T h : Int) (s : List Booking) :
    performCleanupFile T h s =
      (s.length - (s.filter fun b => !(isBookingExpired T h b.date b.end_time)).length,
        s.filter fun b => !(isBookingExpired T h b.date b.end_time)) := rfl

theorem applyOp_preserves (s : List Booking) (op : BookingOp) (hinv : NoOverlaps s) :
    NoOverlaps (applyOp s op) := by
  cases op with
  | postFile T h sid body newId createdAt =>
    show NoOverlaps (readBookings (POSTRoute T h sid body newId createdAt
      (.content (some s))).2)
    cases sid with
    | none => exact hinv
    | some sessionId =>
      unfold POSTRoute
      dsimp only
      by_cases h1 : requiredMissingRoute body = true
      · rw [if_pos h1]; exact hinv
      rw [if_neg h1]
      by_cases h2 : strLeB body.endTime body.startTime = true
      · rw [if_pos h2]; exact hinv
      rw [if_neg h2]
      by_cases h3 : futureRejectCheck T h body.date body.startTime = true
      · rw [if_pos h3]; exact hinv
      rw [if_neg h3]
      by_cases h4 : hasOverlappingBooking
        (cleanupExpiredBookings T h (readBookings (.content (some s))))
        (newBookingDataOf body) = true
      · rw [if_pos h4]; exact hinv
      rw [if_neg h4]
      have h4f : hasOverlappingBooking (cleanupExpiredBookings T h s)
          (newBookingDataOf body) = false := Bool.eq_false_iff.mpr h4
      show NoOverlaps (cleanupExpiredBookings T h s ++
        [mkBookingRoute body newId createdAt sessionId])
      unfold NoOverlaps
      rw [List.pairwise_append]
      refine ⟨hinv.sublist (List.filter_sublist s), List.pairwise_singleton .., ?_⟩
      intro a ha x hx
      rw [List.mem_singleton] at hx
      subst hx
      exact check_blocks_overlap body (cleanupExpiredBookings T h s) h4f a ha _ rfl rfl rfl rfl
  | postDb T h sid body newId createdAt insertOk =>
    show NoOverlaps (POSTSupabase T h sid body newId createdAt insertOk s).2
    cases sid with
    | none => exact hinv
    | some sessionId =>
      unfold POSTSupabase
      dsimp only
      by_cases h1 : requiredMissingDb body = true
      · rw [if_pos h1]; exact hinv
      rw [if_neg h1]
      by_cases hph : (!validateThaiPhone body.phone) = true
      · rw [if_pos hph]; exact hinv
      rw [if_neg hph]
      by_cases h2 : strLeB body.endTime body.startTime = true
      · rw [if_pos h2]; exact hinv
      rw [if_neg h2]
      by_cases h3 : futureRejectCheck T h body.date body.startTime = true
      · rw [if_pos h3]; exact hinv
      rw [if_neg h3]
      by_cases h4 : hasOverlappingBooking (cleanupExpiredBookings1 T h s)
        (newBookingDataOf body) = true
      · rw [if_pos h4]; exact hinv
      rw [if_neg h4]
      by_cases h5 : insertOk = true
      case neg => rw [if_neg h5]; exact hinv
      rw [if_pos h5]
      have h4f : hasOverlappingBooking (cleanupExpiredBookings1 T h s)
          (newBookingDataOf body) = false := Bool.eq_false_iff.mpr h4
      have h3f : futureRejectCheck T h body.date body.startTime = false :=
        Bool.eq_false_iff.mpr h3
      show NoOverlaps (s ++ [mkBookingDb body newId createdAt sessionId])
      unfold NoOverlaps
      rw [List.pairwise_append]
      refine ⟨hinv, List.pairwise_singleton .., ?_⟩
      intro a ha x hx
      rw [List.mem_singleton] at hx
      subst hx
      by_cases hexp : isBookingExpired T h a.date a.end_time = true
      · exact expired_no_overlap T h body a hexp h3f _ rfl rfl
      · have hexpf : isBookingExpired T h a.date a.end_time = false :=
          Bool.eq_false_iff.mpr hexp
        have hain : a ∈ cleanupExpiredBookings1 T h s :=
          List.mem_filter.mpr ⟨ha, by rw [hexpf]; rfl⟩
        exact check_blocks_overlap body (cleanupExpiredBookings1 T h s) h4f a hain _
          rfl rfl rfl rfl
  | deleteOne isAdmin sid bookingId =>
    exact hinv.sublist (deleteById_snd_sublist isAdmin sid bookingId s)
  | cleanupDb T h =>
    show NoOverlaps (performCleanup T h s).2
    rw [performCleanup_def]
    exact hinv.sublist (List.filter_sublist s)
  | cleanupFile T h =>
    show NoOverlaps (performCleanupFile T h s).2
    rw [performCleanupFile_def]
    exact hinv.sublist (List.filter_sublist s)

/-! ## Claim theorems -/

/-- C1: `hasOverlappingBooking` reports a conflict iff some existing booking
    has the same machine and the same date and satisfies
    `existing.start_time < candidate.end_time` and
    `existing.end_time > candidate.start_time` (JS string comparison of the
    time fields); and a candidate all of whose same-machine/date existing
    bookings merely touch it (`candidate.end_time == existing.start_time` or
    `candidate.start_time == existing.end_time`) is never reported as a
    conflict. -/
theorem overlap_conflict_iff (bs : List Booking) (nb : NewBooking) :
    (hasOverlappingBooking bs nb = true ↔
      ∃ b ∈ bs, b.machine = nb.machine ∧ b.date = nb.date ∧
        strLtB b.start_time nb.end_time = true ∧ strLtB nb.start_time b.end_time = true) ∧
    ((∀ b ∈ bs, b.machine = nb.machine → b.date = nb.date →
        nb.end_time = b.start_time ∨ nb.start_time = b.end_time) →
      hasOverlappingBooking bs nb = false) := by
  refine ⟨hasOverlappingBooking_iff bs nb, ?_⟩
  intro htouch
  by_contra hne
  have htrue : hasOverlappingBooking bs nb = true := by
    cases hx : hasOverlappingBooking bs nb
    · exact absurd hx hne
    · rfl
  obtain ⟨b, hb, hm, hd, h1, h2⟩ := (hasOverlappingBooking_iff bs nb).mp htrue
  rcases htouch b hb hm hd with he | he
  · rw [he, strLtB_self] at h1
    exact Bool.false_ne_true h1
  · rw [he, strLtB_self] at h2
    exact Bool.false_ne_true h2

/-- Witness for C1: a candidate starting exactly when the only existing
    booking ends is not a conflict. -/
theorem overlap_conflict_iff_witness :
    hasOverlappingBooking [⟨"b1", "N", "P", "A", "2025-01-01", "10:00", "10:30", "c", "s"⟩]
      ⟨"A", "2025-01-01", "10:30", "11:00"⟩ = false :=
  (overlap_conflict_iff [⟨"b1", "N", "P", "A", "2025-01-01", "10:00", "10:30", "c", "s"⟩]
      ⟨"A", "2025-01-01", "10:30", "11:00"⟩).2 (by
    intro b hb hm hd
    rw [List.mem_singleton] at hb
    subst hb
    exact Or.inr rfl)

/-- C2: starting from a store in which no two rows' intervals overlap (same
    machine and date, half-open `[start, end)` minute intervals), every state
    reachable by POST creations, DELETE by id and the cleanup passes
    preserves the non-overlap invariant. -/
theorem booking_invariant_preserved (ops : List BookingOp) (s : List Booking)
    (hinv : NoOverlaps s) : NoOverlaps (ops.foldl applyOp s) := by
  induction ops generalizing s with
  | nil => exact hinv
  | cons op ops ih => exact ih (applyOp s op) (applyOp_preserves s op hinv)

/-- Witness for C2: a run that creates a booking through the flat-file POST,
    then one through the Supabase POST, then runs a cleanup, starting from
    the empty store. -/
theorem booking_invariant_preserved_witness :
    NoOverlaps (List.foldl applyOp []
      [BookingOp.postFile 0 0 (some "s1") ⟨"A", "0812345678", "M", "2100-01-01", "10:00", "11:00"⟩ "id1" "c1",
       BookingOp.postDb 0 0 (some "s2") ⟨"B", "0898765432", "M", "2100-01-01", "11:00", "12:00"⟩ "id2" "c2" true,
       BookingOp.cleanupDb 0 0]) :=
  booking_invariant_preserved
    [BookingOp.postFile 0 0 (some "s1") ⟨"A", "0812345678", "M", "2100-01-01", "10:00", "11:00"⟩ "id1" "c1",
     BookingOp.postDb 0 0 (some "s2") ⟨"B", "0898765432", "M", "2100-01-01", "11:00", "12:00"⟩ "id2" "c2" true,
     BookingOp.cleanupDb 0 0] [] List.Pairwise.nil

/-- C9: cleanup is idempotent — for a fixed current instant and host offset,
    running either cleanup on the rows the first run left behind deletes
    nothing (`deletedCount = 0`) and leaves the rows unchanged. -/
theorem cleanup_idempotent (T h : Int) (s : List Booking) :
    performCleanup T h (performCleanup T h s).2 = (0, (performCleanup T h s).2) ∧
    performCleanupFile T h (performCleanupFile T h s).2 =
      (0, (performCleanupFile T h s).2) := by
  constructor
  · have key : ∀ b ∈ (performCleanup T h s).2, cleanupRouteExpired T h b = false := by
      intro b hb
      rw [performCleanup_def] at hb
      obtain ⟨hbs, hkeep⟩ := List.mem_filter.mp hb
      by_contra hpb
      have hpb' : cleanupRouteExpired T h b = true := by
        cases hx : cleanupRouteExpired T h b
        · exact absurd hx hpb
        · rfl
      have hmem : b.id ∈ (s.filter (cleanupRouteExpired T h)).map Booking.id :=
        List.mem_map_of_mem Booking.id (List.mem_filter.mpr ⟨hbs, hpb'⟩)
      rw [← List.elem_iff] at hmem
      have hcont : (List.map Booking.id (List.filter (cleanupRouteExpired T h) s)).contains b.id
          = true := hmem
      rw [hcont] at hkeep
      exact Bool.false_ne_true hkeep
    have hnil : (performCleanup T h s).2.filter (cleanupRouteExpired T h) = [] :=
      List.filter_eq_nil_iff.mpr fun b hb => by simp [key b hb]
    rw [performCleanup_def T h (performCleanup T h s).2, hnil]
    simp only [List.map_nil, List.length_nil]
    have hall : (performCleanup T h s).2.filter
        (fun b => !(([] : List String).contains b.id)) = (performCleanup T h s).2 :=
      List.filter_eq_self.mpr fun a ha => rfl
    rw [hall]
  · have hq : (performCleanupFile T h s).2.filter
        (fun b => !(isBookingExpired T h b.date b.end_time)) = (performCleanupFile T h s).2 :=
      List.filter_eq_self.mpr fun b hb =>
        (List.mem_filter.mp (show b ∈ List.filter
          (fun x => !(isBookingExpired T h x.date x.end_time)) s from hb)).2
    rw [performCleanupFile_def T h (performCleanupFile T h s).2, hq, Nat.sub_self]

/-- C3 (amended): the future check combines `date` and `start_time` with
    `new Date(dateTstart)`, which anchors the wall-clock fields in the
    server's local timezone (offset `h`), and compares against the current
    instant; whenever that host-local instant is not strictly after now, the
    submission is rejected and the store is unchanged — in both POST
    iterations.  Only on a host running at UTC+7 does this coincide with the
    claimed fixed-offset interpretation. -/
theorem past_check_host_local (T h : Int) (sid : String) (body : PostBody)
    (newId createdAt : String) (insertOk : Bool) (f : DataFile) (s : List Booking) (C : Int)
    (hp : parseCivil body.date body.startTime = some C) (hle : C - h ≤ T) :
    ((POSTRoute T h (some sid) body newId createdAt f).2 = f ∧
      ∀ b, (POSTRoute T h (some sid) body newId createdAt f).1 ≠ .created b) ∧
    ((POSTSupabase T h (some sid) body newId createdAt insertOk s).2 = s ∧
      ∀ b, (POSTSupabase T h (some sid) body newId createdAt insertOk s).1 ≠ .created b) := by
  have hfut : futureRejectCheck T h body.date body.startTime = true := by
    simp only [futureRejectCheck, hp]
    exact decide_eq_true hle
  constructor
  · unfold POSTRoute
    dsimp only
    by_cases h1 : requiredMissingRoute body = true
    · rw [if_pos h1]; exact ⟨rfl, fun b => by simp⟩
    rw [if_neg h1]
    by_cases h2 : strLeB body.endTime body.startTime = true
    · rw [if_pos h2]; exact ⟨rfl, fun b => by simp⟩
    rw [if_neg h2, if_pos hfut]
    exact ⟨rfl, fun b => by simp⟩
  · unfold POSTSupabase
    dsimp only
    by_cases h1 : requiredMissingDb body = true
    · rw [if_pos h1]; exact ⟨rfl, fun b => by simp⟩
    rw [if_neg h1]
    by_cases hph : (!validateThaiPhone body.phone) = true
    · rw [if_pos hph]; exact ⟨rfl, fun b => by simp⟩
    rw [if_neg hph]
    by_cases h2 : strLeB body.endTime body.startTime = true
    · rw [if_pos h2]; exact ⟨rfl, fun b => by simp⟩
    rw [if_neg h2, if_pos hfut]
    exact ⟨rfl, fun b => by simp⟩

/-- Witness for C3 (amended): now is 1970-01-01T07:00Z on a UTC host and the
    submission for 1970-01-01 07:00 (host-local = exactly now) is rejected
    with the store unchanged. -/
theorem past_check_host_local_witness :
    ((POSTRoute 25200000 0 (some "s1")
        ⟨"Alice", "0812345678", "A", "1970-01-01", "07:00", "08:00"⟩ "id1" "t0"
        (.content (some []))).2 = .content (some []) ∧
      ∀ b, (POSTRoute 25200000 0 (some "s1")
        ⟨"Alice", "0812345678", "A", "1970-01-01", "07:00", "08:00"⟩ "id1" "t0"
        (.content (some []))).1 ≠ .created b) ∧
    ((POSTSupabase 25200000 0 (some "s1")
        ⟨"Alice", "0812345678", "A", "1970-01-01", "07:00", "08:00"⟩ "id1" "t0" true []).2 = [] ∧
      ∀ b, (POSTSupabase 25200000 0 (some "s1")
        ⟨"Alice", "0812345678", "A", "1970-01-01", "07:00", "08:00"⟩ "id1" "t0" true []).1 ≠
          .created b) :=
  past_check_host_local 25200000 0 "s1"
    ⟨"Alice", "0812345678", "A", "1970-01-01", "07:00", "08:00"⟩ "id1" "t0" true
    (.content (some [])) [] 25200000 (by decide) (by decide)

/-- C3 (counterexample): on a UTC host (`h = 0`, the deployment the sources
    document) with now `T = 0` (= 1970-01-01 07:00 in the fixed UTC+7
    offset), the submission for 1970-01-01 07:00 starts exactly at "now" in
    the fixed offset — `C - THAILAND_TIMEZONE_OFFSET ≤ T` — so the claim
    requires rejection, yet the POST creates the booking: the check uses the
    host timezone, not the fixed regional offset. -/
theorem past_check_not_thailand :
    (POSTRoute 0 0 (some "sess1")
        ⟨"Alice", "0812345678", "A", "1970-01-01", "07:00", "08:00"⟩ "id1" "t0"
        (.content (some []))).1 =
      .created (mkBookingRoute ⟨"Alice", "0812345678", "A", "1970-01-01", "07:00", "08:00"⟩
        "id1" "t0" "sess1") ∧
    parseCivil "1970-01-01" "07:00" = some 25200000 ∧
    25200000 - THAILAND_TIMEZONE_OFFSET ≤ (0 : Int) := by
  refine ⟨by decide, by decide, by decide⟩

/-- C4: at a failing input the cited expiry evaluators disagree with the
    claimed rule, and with each other.  The booking ends at Thailand wall
    clock 1970-01-01 10:00 (civil value 36000000 ms); now is three hours
    later in the fixed offset (UTC instant T = 21600000, so
    now_in_offset - end_in_offset = 3 h > 30 min grace).  The cleanup
    route's evaluator answers `true` exactly as the claim requires, but
    `isBookingExpired` on a UTC host answers `false` — it effectively waits
    until the host-local wall clock passes the stored end time, 7 hours
    late.  This contradicts the function's own Thailand-handling
    documentation and the repo's `test-cleanup.js` logic. -/
theorem expiry_evaluator_divergence :
    isBookingExpired 21600000 0 "1970-01-01" "10:00" = false ∧
    cleanupRouteExpired 21600000 0
      ⟨"b1", "N", "P", "A", "1970-01-01", "09:00", "10:00", "c", "s"⟩ = true ∧
    parseCivil "1970-01-01" "10:00" = some 36000000 ∧
    GRACE_WINDOW_MS < 21600000 + THAILAND_TIMEZONE_OFFSET - 36000000 := by
  refine ⟨by decide, by decide, by decide, by decide⟩

/-- C5: a booking whose date or end time fails to parse (the expiry
    computation would throw or yield an invalid date) is treated as NOT
    expired, and both `isBookingExpired`-based cleanup filters keep it in
    the stored set. -/
theorem parse_failure_keeps_booking (T h : Int) (bs : List Booking) (b : Booking)
    (hb : b ∈ bs) (hp : parseCivil b.date b.end_time = none) :
    isBookingExpired T h b.date b.end_time = false ∧
    b ∈ cleanupExpiredBookings1 T h bs ∧
    b ∈ (performCleanupFile T h bs).2 := by
  have hexp : isBookingExpired T h b.date b.end_time = false := isBookingExpired_none hp
  refine ⟨hexp, ?_, ?_⟩
  · exact List.mem_filter.mpr ⟨hb, by rw [hexp]; rfl⟩
  · show b ∈ bs.filter fun x => !(isBookingExpired T h x.date x.end_time)
    exact List.mem_filter.mpr ⟨hb, by rw [hexp]; rfl⟩

/-- Witness for C5: a booking dated `bad-date` is kept by both cleanups. -/
theorem parse_failure_keeps_booking_witness :
    isBookingExpired 0 0 "bad-date" "10:00" = false ∧
    (⟨"b1", "N", "P", "A", "bad-date", "09:00", "10:00", "c", "s"⟩ : Booking) ∈
      cleanupExpiredBookings1 0 0 [⟨"b1", "N", "P", "A", "bad-date", "09:00", "10:00", "c", "s"⟩] ∧
    (⟨"b1", "N", "P", "A", "bad-date", "09:00", "10:00", "c", "s"⟩ : Booking) ∈
      (performCleanupFile 0 0 [⟨"b1", "N", "P", "A", "bad-date", "09:00", "10:00", "c", "s"⟩]).2 :=
  parse_failure_keeps_booking 0 0
    [⟨"b1", "N", "P", "A", "bad-date", "09:00", "10:00", "c", "s"⟩]
    ⟨"b1", "N", "P", "A", "bad-date", "09:00", "10:00", "c", "s"⟩
    (List.mem_singleton.mpr rfl) (by decide)

/-- C6: any POST in which `endTime <= startTime` (JS string comparison) is
    rejected with a validation error — never a 201 — and leaves the store
    unchanged, regardless of every other field, in both POST iterations. -/
theorem end_before_start_rejected (T h : Int) (sid : Option String) (body : PostBody)
    (newId createdAt : String) (insertOk : Bool) (f : DataFile) (s : List Booking)
    (hord : strLeB body.endTime body.startTime = true) :
    ((POSTRoute T h sid body newId createdAt f).2 = f ∧
      ∀ b, (POSTRoute T h sid body newId createdAt f).1 ≠ .created b) ∧
    ((POSTSupabase T h sid body newId createdAt insertOk s).2 = s ∧
      ∀ b, (POSTSupabase T h sid body newId createdAt insertOk s).1 ≠ .created b) := by
  constructor
  · cases sid with
    | none => exact ⟨rfl, fun b => by simp [POSTRoute]⟩
    | some sessionId =>
      unfold POSTRoute
      dsimp only
      by_cases h1 : requiredMissingRoute body = true
      · rw [if_pos h1]; exact ⟨rfl, fun b => by simp⟩
      rw [if_neg h1, if_pos hord]
      exact ⟨rfl, fun b => by simp⟩
  · cases sid with
    | none => exact ⟨rfl, fun b => by simp [POSTSupabase]⟩
    | some sessionId =>
      unfold POSTSupabase
      dsimp only
      by_cases h1 : requiredMissingDb body = true
      · rw [if_pos h1]; exact ⟨rfl, fun b => by simp⟩
      rw [if_neg h1]
      by_cases hph : (!validateThaiPhone body.phone) = true
      · rw [if_pos hph]; exact ⟨rfl, fun b => by simp⟩
      rw [if_neg hph, if_pos hord]
      exact ⟨rfl, fun b => by simp⟩

/-- Witness for C6: a submission ending 10:00 and starting 10:30 is rejected
    by both POST iterations with the store unchanged. -/
theorem end_before_start_rejected_witness :
    ((POSTRoute 0 0 (some "s1") ⟨"A", "0812345678", "M", "2100-01-01", "10:30", "10:00"⟩
        "i" "c" (.content (some []))).2 = .content (some []) ∧
      ∀ b, (POSTRoute 0 0 (some "s1") ⟨"A", "0812345678", "M", "2100-01-01", "10:30", "10:00"⟩
        "i" "c" (.content (some []))).1 ≠ .created b) ∧
    ((POSTSupabase 0 0 (some "s1") ⟨"A", "0812345678", "M", "2100-01-01", "10:30", "10:00"⟩
        "i" "c" true []).2 = [] ∧
      ∀ b, (POSTSupabase 0 0 (some "s1") ⟨"A", "0812345678", "M", "2100-01-01", "10:30", "10:00"⟩
        "i" "c" true []).1 ≠ .created b) :=
  end_before_start_rejected 0 0 (some "s1")
    ⟨"A", "0812345678", "M", "2100-01-01", "10:30", "10:00"⟩ "i" "c" true
    (.content (some [])) [] (by decide)

/-- C7: the phone validator strips whitespace and punctuation (so it is
    invariant under its own normalisation), accepts iff one of the fixed
    regional patterns matches the normalised digits, accepts "0812345678",
    rejects "12345", and a Supabase POST carrying phone "12345" (with all
    fields present) fails with the invalid-phone error and leaves the store
    unchanged. -/
theorem thai_phone_validation :
    validateThaiPhone "0812345678" = true ∧
    validateThaiPhone "12345" = false ∧
    (∀ s : String, validateThaiPhone (cleanPhone s) = validateThaiPhone s) ∧
    (∀ (T h : Int) (sid : String) (body : PostBody) (newId createdAt : String)
        (insertOk : Bool) (stored : List Booking),
      body.phone = "12345" → requiredMissingDb body = false →
      POSTSupabase T h (some sid) body newId createdAt insertOk stored =
        (.err400Phone, stored)) := by
  refine ⟨by decide, by decide, ?_, ?_⟩
  · intro s
    unfold validateThaiPhone
    have hdata : (cleanPhone s).data = cleanPhoneL s.data := rfl
    rw [hdata, cleanPhoneL_idem]
  · intro T h sid body newId createdAt insertOk stored hphone hmiss
    unfold POSTSupabase
    dsimp only
    rw [if_neg (Bool.eq_false_iff.mp hmiss), if_pos (by rw [hphone]; decide)]

/-- Witness for C7: the valid and invalid sample phones, and the rejected
    POST with phone "12345". -/
theorem thai_phone_validation_witness :
    validateThaiPhone "0812345678" = true ∧
    POSTSupabase 0 0 (some "s1") ⟨"A", "12345", "M", "2100-01-01", "10:00", "11:00"⟩
      "i" "c" true [] = (.err400Phone, []) :=
  ⟨thai_phone_validation.1,
    thai_phone_validation.2.2.2 0 0 "s1" ⟨"A", "12345", "M", "2100-01-01", "10:00", "11:00"⟩
      "i" "c" true [] rfl (by decide)⟩

/-- C8: DELETE by id — without a session the result is 401 and nothing is
    deleted; with a session but no row carrying the id the result is 404 and
    the store is unchanged; when the row belongs to another session and
    `isAdmin` is not set the result is 403 and the store is unchanged; when
    the requester owns the row or `isAdmin` is set, exactly the found row is
    removed and returned, every other row unchanged.  (An id is a non-empty
    path segment; the route layer never delivers an empty one.) -/
theorem delete_by_id_cases (isAdmin : Bool) (sid : String) (bookingId : String)
    (bs : List Booking) :
    (deleteById isAdmin none bookingId bs = (.err401, bs)) ∧
    (bookingId ≠ "" → (∀ b ∈ bs, b.id ≠ bookingId) →
      deleteById isAdmin (some sid) bookingId bs = (.err404, bs)) ∧
    (∀ b, bookingId ≠ "" → bs.find? (fun x => x.id == bookingId) = some b →
      b.session_id ≠ sid →
      deleteById false (some sid) bookingId bs = (.err403, bs)) ∧
    (∀ b, bookingId ≠ "" → bs.find? (fun x => x.id == bookingId) = some b →
      (isAdmin = true ∨ b.session_id = sid) →
      ∃ l1 l2, bs = l1 ++ b :: l2 ∧ (∀ x ∈ l1, x.id ≠ bookingId) ∧
        deleteById isAdmin (some sid) bookingId bs = (.ok b, l1 ++ l2)) := by
  have hidne : ∀ (hne : bookingId ≠ ""), ¬((bookingId == "") = true) :=
    fun hne => Bool.eq_false_iff.mp (beq_eq_false_iff_ne.mpr hne)
  refine ⟨rfl, ?_, ?_, ?_⟩
  · intro hne hnone
    have hfind : bs.find? (fun x => x.id == bookingId) = none :=
      List.find?_eq_none.mpr fun x hx => by simp [hnone x hx]
    unfold deleteById
    dsimp only
    rw [if_neg (hidne hne), hfind]
  · intro b hne hfind hsess
    unfold deleteById
    dsimp only
    rw [if_neg (hidne hne), hfind]
    dsimp only
    rw [if_pos (by simp [hsess])]
  · intro b hne hfind hor
    obtain ⟨l1, l2, hbs, hall, herase⟩ :=
      find_eraseP_decomp (fun x => x.id == bookingId) bs b hfind
    refine ⟨l1, l2, hbs, fun x hx => beq_eq_false_iff_ne.mp (hall x hx), ?_⟩
    unfold deleteById
    dsimp only
    rw [if_neg (hidne hne), hfind]
    dsimp only
    rw [if_neg (by rcases hor with hor | hor <;> simp [hor]), herase]

/-- Witness for C8: deleting another session's booking without the admin
    flag yields 403 and leaves the store unchanged. -/
theorem delete_by_id_cases_witness :
    deleteById false (some "s1") "b1"
      [⟨"b1", "N", "P", "A", "2025-01-01", "10:00", "11:00", "c", "owner2"⟩] =
      (.err403, [⟨"b1", "N", "P", "A", "2025-01-01", "10:00", "11:00", "c", "owner2"⟩]) :=
  (delete_by_id_cases false "s1" "b1"
      [⟨"b1", "N", "P", "A", "2025-01-01", "10:00", "11:00", "c", "owner2"⟩]).2.2.1
    ⟨"b1", "N", "P", "A", "2025-01-01", "10:00", "11:00", "c", "owner2"⟩
    (by decide) (by decide) (by decide)

/-- C10: when the data file is missing, unreadable or unparseable,
    `readBookings` yields the empty list; GET answers with zero bookings
    (count 0, a 200-shaped response) without touching the file; and a POST
    that passes validation inserts against the empty set and persists a
    store holding exactly the new booking. -/
theorem missing_store_fallback (T h : Int) (sid : String) (body : PostBody)
    (newId createdAt : String) (f : DataFile)
    (hf : f = .absent ∨ f = .unreadable ∨ f = .content none)
    (hm : requiredMissingRoute body = false)
    (hord : strLeB body.endTime body.startTime = false)
    (hfut : futureRejectCheck T h body.date body.startTime = false) :
    readBookings f = [] ∧
    GETRoute T h (some sid) f = (⟨[], 0, some sid⟩, f) ∧
    POSTRoute T h (some sid) body newId createdAt f =
      (.created (mkBookingRoute body newId createdAt sid),
        .content (some [mkBookingRoute body newId createdAt sid])) := by
  have hread : readBookings f = [] := by
    rcases hf with hf | hf | hf <;> rw [hf] <;> rfl
  refine ⟨hread, ?_, ?_⟩
  · unfold GETRoute
    rw [hread]
    rfl
  · unfold POSTRoute
    dsimp only
    rw [if_neg (Bool.eq_false_iff.mp hm), if_neg (Bool.eq_false_iff.mp hord),
        if_neg (Bool.eq_false_iff.mp hfut), hread]
    rw [if_neg (show ¬(hasOverlappingBooking (cleanupExpiredBookings T h [])
      (newBookingDataOf body) = true) from fun hx => Bool.false_ne_true hx)]
    rfl

/-- Witness for C10: with the file absent, GET reports zero bookings and a
    valid POST persists exactly its own booking. -/
theorem missing_store_fallback_witness :
    readBookings .absent = [] ∧
    GETRoute 0 0 (some "s1") .absent = (⟨[], 0, some "s1"⟩, .absent) ∧
    POSTRoute 0 0 (some "s1") ⟨"A", "0812345678", "M", "2100-01-01", "10:00", "11:00"⟩
        "i" "c" .absent =
      (.created (mkBookingRoute ⟨"A", "0812345678", "M", "2100-01-01", "10:00", "11:00"⟩
          "i" "c" "s1"),
        .content (some [mkBookingRoute ⟨"A", "0812345678", "M", "2100-01-01", "10:00", "11:00"⟩
          "i" "c" "s1"])) :=
  missing_store_fallback 0 0 "s1" ⟨"A", "0812345678", "M", "2100-01-01", "10:00", "11:00"⟩
    "i" "c" .absent (Or.inl rfl) (by decide) (by decide) (by decide)
